import Mathlib

/-! Retry handling of the Flink client
(`pkg/controller/flink/client/error_handler.go`).

A shallow embedding of the structured application error and of the
`RetryHandler` queries, followed by theorems about them.

Conventions of the embedding
* Go's `int`, `int64` and `time.Duration` are 64-bit two's complement
  integers.  They are represented by `Int`; every arithmetic operation that
  can leave the 64-bit range is followed by `wrap64`.
* `int32` values are represented by `Int`; `uint(retryCount)` is the
  reinterpretation of the sign-extended value as an unsigned 64-bit integer.
* A run-time panic is an explicit result: fallible functions return
  `Except Panic _`.
* `rand.Intn` and `clock.Clock` come from libraries outside the package.
  The value drawn by `rand.Intn` is a parameter (`draw`) of every function
  that reaches it, and the clock is a record holding its `Since` method.
-/

namespace FlinkClient

/-! ## Machine integers and durations -/

/-- Two's complement wrap-around to the signed 64-bit range. -/
def wrap64 (x : Int) : Int :=
  (x + 9223372036854775808) % 18446744073709551616 - 9223372036854775808

/-- Membership in the range of `int64` (also `int` and `time.Duration`). -/
def isInt64 (x : Int) : Prop :=
  -9223372036854775808 ≤ x ∧ x < 9223372036854775808

/-- Membership in the range of `int32`. -/
def isInt32 (x : Int) : Prop :=
  -2147483648 ≤ x ∧ x < 2147483648

instance (x : Int) : Decidable (isInt64 x) := by
  unfold isInt64; infer_instance

instance (x : Int) : Decidable (isInt32 x) := by
  unfold isInt32; infer_instance

/-- The type `time.Duration`: a count of nanoseconds. -/
abbrev Duration := Int

/-- The type `time.Time`, as an instant in nanoseconds. -/
abbrev Time := Int

/-- The constant `time.Millisecond`. -/
def Millisecond : Duration := 1000000

/-- Conversion `uint(x)` of a signed integer: the value modulo `2^64`. -/
def toUint (x : Int) : Int := x % 18446744073709551616

/-- The expression `1 << s` on `int`, for an unsigned shift count `s`:
zero once the count reaches the width, the wrapped power of two below it. -/
def shl1 (s : Int) : Int :=
  if 64 ≤ s then 0 else wrap64 (2 ^ s.toNat)

/-- Multiplication on `int` / `int64` / `time.Duration`. -/
def mul64 (a b : Int) : Int := wrap64 (a * b)

/-- Addition on `int`. -/
def add64 (a b : Int) : Int := wrap64 (a + b)

/-! ## Panics -/

/-- The run-time panics the package can raise. -/
inductive Panic where
  | nilDereference
  | invalidArgumentToIntn
  deriving DecidableEq, Repr

/-- The call `rand.Intn(n)`: it panics unless `n` is positive, and otherwise
returns the value drawn by the generator, which lies in `[0, n)`. -/
def Intn (n : Int) (draw : Int) : Except Panic Int :=
  if n ≤ 0 then .error .invalidArgumentToIntn else .ok draw

/-! ## The structured error -/

/-- The struct `FlinkApplicationError`. -/
structure FlinkApplicationError where
  AppError : String
  Method : String
  ErrorCode : String
  IsRetryable : Bool
  IsFailFast : Bool
  MaxRetries : Int
  LastErrorUpdateTime : Option Time
  deriving DecidableEq, Repr

/-- A value of the interface type `error`: the nil interface, a
`*FlinkApplicationError` (whose pointer may itself be nil), or a value of
some other dynamic type. -/
inductive GoError where
  | nil
  | flink (p : Option FlinkApplicationError)
  | other (dynType : String) (msg : String)
  deriving DecidableEq, Repr

/-- The type assertion `err.(*FlinkApplicationError)` in its two-result
form: the pointer and whether the dynamic type matched. -/
def assertFlink (err : GoError) : Option FlinkApplicationError × Bool :=
  match err with
  | .flink p => (p, true)
  | _ => (none, false)

/-- Dereference of a `*FlinkApplicationError`. -/
def deref (p : Option FlinkApplicationError) : Except Panic FlinkApplicationError :=
  match p with
  | some f => .ok f
  | none => .error .nilDereference

/-- The function `min` of the package. -/
def min (a b : Int) : Int :=
  if a < b then a else b

/-! ## The retry handler -/

/-- The interface `clock.Clock`, reduced to the method the handler calls. -/
structure Clock where
  Since : Time → Duration

/-- The struct `RetryHandler`. -/
structure RetryHandler where
  baseBackOffDuration : Duration
  maxErrWaitDuration : Duration
  maxBackOffMillisDuration : Duration
  deriving DecidableEq, Repr

/-- The fields of a handler are `time.Duration` values. -/
def RetryHandler.wf (r : RetryHandler) : Prop :=
  isInt64 r.baseBackOffDuration ∧ isInt64 r.maxErrWaitDuration ∧
    isInt64 r.maxBackOffMillisDuration

instance (r : RetryHandler) : Decidable r.wf := by
  unfold RetryHandler.wf; infer_instance

/-- The method `IsErrorRetryable`. -/
def RetryHandler.IsErrorRetryable (_r : RetryHandler) (err : GoError) : Except Panic Bool :=
  if err = .nil then .ok false
  else
    let (flinkAppError, ok) := assertFlink err
    if ok && flinkAppError.isSome then do
      let f ← deref flinkAppError
      pure f.IsRetryable
    else .ok false

/-- The method `IsRetryRemaining`. -/
def RetryHandler.IsRetryRemaining (_r : RetryHandler) (err : GoError) (retryCount : Int) :
    Except Panic Bool :=
  let (flinkAppError, ok) := assertFlink err
  if ok && flinkAppError.isSome then do
    let f ← deref flinkAppError
    pure (decide (retryCount ≤ f.MaxRetries))
  else .ok false

/-- The method `IsErrorFailFast`. -/
def RetryHandler.IsErrorFailFast (_r : RetryHandler) (err : GoError) : Except Panic Bool :=
  if err = .nil then .ok false
  else
    let (flinkAppError, ok) := assertFlink err
    if ok && flinkAppError.isSome then do
      let f ← deref flinkAppError
      pure f.IsFailFast
    else .ok false

/-- The method `WaitOnError`. -/
def RetryHandler.WaitOnError (r : RetryHandler) (clock : Clock) (lastUpdatedTime : Time) :
    Duration × Bool :=
  let elapsedTime := clock.Since lastUpdatedTime
  (elapsedTime, decide (elapsedTime ≤ r.maxErrWaitDuration))

/-- The local `timeInMillis` of `GetRetryDelay`: the base backoff in whole
milliseconds (Go's integer division truncates toward zero). -/
def RetryHandler.timeInMillis (r : RetryHandler) : Int :=
  Int.tdiv r.baseBackOffDuration Millisecond

/-- The method `GetRetryDelay`; `draw` is the value `rand.Intn` yields. -/
def RetryHandler.GetRetryDelay (r : RetryHandler) (retryCount : Int) (draw : Int) :
    Except Panic Duration := do
  let timeInMillis := r.timeInMillis
  let j ← Intn timeInMillis draw
  let delay := mul64 (shl1 (toUint retryCount)) (add64 j timeInMillis)
  pure (mul64 (min delay r.maxBackOffMillisDuration) Millisecond)

/-- The method `IsTimeToRetry`; `draw` is the value `rand.Intn` yields. -/
def RetryHandler.IsTimeToRetry (r : RetryHandler) (clock : Clock) (lastUpdatedTime : Time)
    (retryCount : Int) (draw : Int) : Except Panic Bool := do
  let elapsedTime := clock.Since lastUpdatedTime
  let d ← r.GetRetryDelay retryCount draw
  pure (decide (elapsedTime ≤ d))

/-- The handler of the specification's examples: base backoff 100ms, error
wait 5 minutes, maximum backoff 10000ms. -/
def exampleHandler : RetryHandler :=
  { baseBackOffDuration := 100 * Millisecond
    maxErrWaitDuration := 300000 * Millisecond
    maxBackOffMillisDuration := 10000 * Millisecond }

/-- A handler whose base backoff, 500 microseconds, is below one
millisecond. -/
def subMillisecondHandler : RetryHandler :=
  { baseBackOffDuration := 500000
    maxErrWaitDuration := 300000 * Millisecond
    maxBackOffMillisDuration := 10000 * Millisecond }

/-- A handler with base backoff 100ms and maximum backoff 3 hours. -/
def threeHourHandler : RetryHandler :=
  { baseBackOffDuration := 100 * Millisecond
    maxErrWaitDuration := 300000 * Millisecond
    maxBackOffMillisDuration := 10800000 * Millisecond }

/-- A clock that reports the same elapsed time for every instant. -/
def constClock (elapsed : Duration) : Clock :=
  { Since := fun _ => elapsed }

/-- An application error with the given flags and retry bound. -/
def sampleError (isRetryable isFailFast : Bool) (maxRetries : Int) : FlinkApplicationError :=
  { AppError := "SubmitJob call failed with status FAILED and message []"
    Method := "SubmitJob"
    ErrorCode := "FAILED"
    IsRetryable := isRetryable
    IsFailFast := isFailFast
    MaxRetries := maxRetries
    LastErrorUpdateTime := none }

/-! ## Construction of the structured error -/

/-- The constant `GlobalFailure`. -/
def GlobalFailure : String := "FAILED"

/-- The constant `JSONUnmarshalError`. -/
def JSONUnmarshalError : String := "JSONUNMARSHALERROR"

/-- The constant `defaultRetries`. -/
def defaultRetries : Int := 20

/-- The constant `noRetries`. -/
def noRetries : Int := 0

/-- The constant `SubmitJob` of type `FlinkMethod`. -/
def SubmitJob : String := "SubmitJob"

/-- The constant `GetJobs` of type `FlinkMethod`. -/
def GetJobs : String := "GetJobs"

/-- The method `Error` of `*FlinkApplicationError`: it reads a field of the
receiver, so a nil receiver panics. -/
def FlinkApplicationError.Error (p : Option FlinkApplicationError) : Except Panic String := do
  let f ← deref p
  pure f.AppError

/-- The call `err.Error()` on a value of the interface type `error`. -/
def GoError.Error (err : GoError) : Except Panic String :=
  match err with
  | .nil => .error .nilDereference
  | .flink p => FlinkApplicationError.Error p
  | .other _ msg => .ok msg

/-- The verb `%v` of package `fmt` applied to a `[]string`: an opening
bracket, the elements with one blank before every element but the first, and
a closing bracket. -/
def fmtStringSlice (xs : List String) : String :=
  (xs.foldl (fun (acc : String × Bool) x =>
    ((if acc.2 then acc.1 else acc.1 ++ " ") ++ x, false)) ("[", true)).1 ++ "]"

/-- The call `fmt.Sprintf("%v call failed with status %v and message %v",
method, errorCode, message)`. -/
def sprintfCallFailed (method errorCode : String) (message : List String) : String :=
  method ++ " call failed with status " ++ errorCode ++ " and message " ++
    fmtStringSlice message

/-- The errors package `github.com/pkg/errors` builds in `GetError`: the
value of `errors.New`, which holds a message, and the value of
`errors.Wrapf` on a non-nil error, which holds a message and the cause. -/
inductive PkgError where
  | fundamental (msg : String)
  | withStack (msg : String) (cause : GoError)
  deriving DecidableEq, Repr

/-- The method `Error` of the values of `github.com/pkg/errors`: the message
of `errors.New`; for `errors.Wrapf` the message, a colon and a blank, and the
message of the cause. -/
def PkgError.Error (e : PkgError) : Except Panic String :=
  match e with
  | .fundamental msg => .ok msg
  | .withStack msg cause => do
    let c ← cause.Error
    pure (msg ++ ": " ++ c)

/-- The function `GetError`.  The result is the `error` interface holding the
new `*FlinkApplicationError`. -/
def GetError (err : GoError) (method : String) (errorCode : String) (isRetryable : Bool)
    (isFailFast : Bool) (maxRetries : Int) (message : List String) : Except Panic GoError := do
  let f : FlinkApplicationError :=
    { AppError := "", Method := "", ErrorCode := "", IsRetryable := false,
      IsFailFast := false, MaxRetries := 0, LastErrorUpdateTime := none }
  let err : PkgError :=
    if err = .nil then .fundamental (sprintfCallFailed method errorCode message)
    else .withStack (sprintfCallFailed method errorCode message) err
  let f := { f with ErrorCode := errorCode }
  let appError ← err.Error
  let f := { f with AppError := appError }
  let f := { f with Method := method }
  let f := { f with IsFailFast := isFailFast }
  let f := { f with IsRetryable := isRetryable }
  let f := { f with MaxRetries := maxRetries }
  pure (.flink (some f))

/-! ## Memory and deep copy -/

/-- A pointer: nil or the address of a cell. -/
abbrev Ptr := Option Nat

/-- The struct `FlinkApplicationError` as it lies in memory: the field
`LastErrorUpdateTime` is a pointer to a `metav1.Time` cell. -/
structure FlinkApplicationErrorCell where
  AppError : String
  Method : String
  ErrorCode : String
  IsRetryable : Bool
  IsFailFast : Bool
  MaxRetries : Int
  LastErrorUpdateTime : Ptr
  deriving DecidableEq, Repr

/-- The zero value of the struct, as `new(FlinkApplicationError)` yields. -/
def zeroCell : FlinkApplicationErrorCell :=
  { AppError := "", Method := "", ErrorCode := "", IsRetryable := false,
    IsFailFast := false, MaxRetries := 0, LastErrorUpdateTime := none }

/-- The memory: the `metav1.Time` cells and the `FlinkApplicationError`
cells, each kind with the next address to allocate. -/
structure Heap where
  times : Nat → Time
  nextTime : Nat
  errors : Nat → FlinkApplicationErrorCell
  nextError : Nat

/-- The allocation `new(FlinkApplicationError)`. -/
def Heap.newError (h : Heap) : Heap × Nat :=
  ({ h with errors := Function.update h.errors h.nextError zeroCell
            nextError := h.nextError + 1 }, h.nextError)

/-- The read `*p` of a `*FlinkApplicationError`. -/
def Heap.readError (h : Heap) (p : Ptr) : Except Panic FlinkApplicationErrorCell :=
  match p with
  | none => .error .nilDereference
  | some a => .ok (h.errors a)

/-- The write `*p = v` through a `*FlinkApplicationError`. -/
def Heap.writeError (h : Heap) (p : Ptr) (v : FlinkApplicationErrorCell) : Except Panic Heap :=
  match p with
  | none => .error .nilDereference
  | some a => .ok { h with errors := Function.update h.errors a v }

/-- The allocation of a `metav1.Time` cell holding `v`. -/
def Heap.newTime (h : Heap) (v : Time) : Heap × Nat :=
  ({ h with times := Function.update h.times h.nextTime v
            nextTime := h.nextTime + 1 }, h.nextTime)

/-- The write `*p = v` through a `*metav1.Time`. -/
def Heap.writeTime (h : Heap) (p : Ptr) (v : Time) : Except Panic Heap :=
  match p with
  | none => .error .nilDereference
  | some a => .ok { h with times := Function.update h.times a v }

/-- The method `DeepCopy` of `*metav1.Time`: nil for a nil receiver,
otherwise a pointer to a new cell holding the same instant. -/
def TimeDeepCopy (h : Heap) (t : Ptr) : Heap × Ptr :=
  match t with
  | none => (h, none)
  | some a =>
    let (h, b) := h.newTime (h.times a)
    (h, some b)

/-- The method `DeepCopyInto`. -/
def FlinkApplicationError.DeepCopyInto (h : Heap) (f out : Ptr) : Except Panic Heap := do
  let v ← h.readError f
  let h ← h.writeError out v
  let fv ← h.readError f
  if fv.LastErrorUpdateTime.isSome then
    let (h, t) := TimeDeepCopy h fv.LastErrorUpdateTime
    let ov ← h.readError out
    h.writeError out { ov with LastErrorUpdateTime := t }
  else pure h

/-- The method `DeepCopy`. -/
def FlinkApplicationError.DeepCopy (h : Heap) (f : Ptr) : Except Panic (Heap × Ptr) :=
  if f = none then .ok (h, none)
  else do
    let (h, out) := h.newError
    let h ← FlinkApplicationError.DeepCopyInto h f (some out)
    pure (h, some out)

/-- The value a `*FlinkApplicationError` points to, with the timestamp
pointer followed: nothing for the nil pointer. -/
def Heap.load (h : Heap) (p : Ptr) : Option FlinkApplicationError :=
  p.map fun a =>
    { AppError := (h.errors a).AppError
      Method := (h.errors a).Method
      ErrorCode := (h.errors a).ErrorCode
      IsRetryable := (h.errors a).IsRetryable
      IsFailFast := (h.errors a).IsFailFast
      MaxRetries := (h.errors a).MaxRetries
      LastErrorUpdateTime := (h.errors a).LastErrorUpdateTime.map h.times }

/-- A memory with one failure at address 0 whose timestamp, at address 0 of
the `metav1.Time` cells, is the instant 1700000000. -/
def sampleHeap : Heap :=
  { times := fun _ => 1700000000
    nextTime := 1
    errors := fun _ =>
      { AppError := "SubmitJob call failed with status FAILED and message []"
        Method := "SubmitJob"
        ErrorCode := "FAILED"
        IsRetryable := true
        IsFailFast := false
        MaxRetries := 20
        LastErrorUpdateTime := some 0 }
    nextError := 1 }

/-! ## Arithmetic helpers -/

theorem wrap64_eq_self {x : Int} (h : isInt64 x) : wrap64 x = x := by
  unfold isInt64 at h
  unfold wrap64
  omega

theorem isInt64_wrap64 (x : Int) : isInt64 (wrap64 x) := by
  unfold isInt64 wrap64
  omega

theorem two_pow_pos_int (n : Nat) : (1 : Int) ≤ 2 ^ n :=
  one_le_pow₀ (by norm_num)

theorem lt_of_two_pow_lt {n : Nat} (h : (2 : Int) ^ n < 9223372036854775808) : n < 63 := by
  by_contra hn
  have h63 : (2 : Int) ^ 63 ≤ 2 ^ n := pow_le_pow_right₀ (by norm_num) (by omega)
  norm_num at h63
  omega

theorem toUint_natCast {n : Nat} (h : n < 64) : toUint (n : Int) = n := by
  unfold toUint
  omega

theorem shl1_natCast {n : Nat} (h : n < 63) : shl1 (n : Int) = 2 ^ n := by
  have hlt : (2 : Int) ^ n < 2 ^ 63 := pow_lt_pow_right₀ (by norm_num) h
  have hpos := two_pow_pos_int n
  norm_num at hlt
  unfold shl1
  rw [if_neg (by omega), Int.toNat_ofNat]
  exact wrap64_eq_self ⟨by omega, hlt⟩

theorem Intn_of_pos {n : Int} (h : 1 ≤ n) (draw : Int) : Intn n draw = .ok draw := by
  unfold Intn
  rw [if_neg (by omega)]

theorem timeInMillis_pos {r : RetryHandler} (h : Millisecond ≤ r.baseBackOffDuration) :
    1 ≤ r.timeInMillis := by
  have h1 : (1000000 : Int) ≤ r.baseBackOffDuration := h
  have h0 : (0 : Int) ≤ r.baseBackOffDuration := by omega
  have e : r.timeInMillis = r.baseBackOffDuration / 1000000 :=
    Int.tdiv_eq_ediv h0 (by decide)
  rw [e]
  omega

/-- What `GetRetryDelay` computes once the base backoff is at least one
millisecond: the draw is accepted and the rest is machine arithmetic. -/
theorem GetRetryDelay_of_pos {r : RetryHandler} (h : 1 ≤ r.timeInMillis) (n draw : Int) :
    r.GetRetryDelay n draw =
      .ok (mul64 (min (mul64 (shl1 (toUint n)) (add64 draw r.timeInMillis))
        r.maxBackOffMillisDuration) Millisecond) := by
  unfold RetryHandler.GetRetryDelay
  simp only [Intn_of_pos h]
  rfl

/-- The local `delay` of `GetRetryDelay` when the product stays inside the
64-bit range: the shift and the product are the mathematical ones. -/
theorem delay_eq_of_no_overflow {n : Nat} {J B : Int} (hJ : 0 ≤ J) (hB : 1 ≤ B)
    (h : 2 ^ n * (J + B) < 9223372036854775808) :
    mul64 (shl1 (toUint (n : Int))) (add64 J B) = 2 ^ n * (J + B) := by
  have hP := two_pow_pos_int n
  have hle1 : (2 : Int) ^ n * 1 ≤ 2 ^ n * (J + B) :=
    mul_le_mul_of_nonneg_left (by omega) (by omega)
  have hle2 : 1 * (J + B) ≤ 2 ^ n * (J + B) :=
    mul_le_mul_of_nonneg_right hP (by omega)
  have hn : n < 63 := lt_of_two_pow_lt (by omega)
  rw [toUint_natCast (by omega), shl1_natCast hn]
  have e1 : add64 J B = J + B := wrap64_eq_self ⟨by omega, by omega⟩
  rw [e1]
  exact wrap64_eq_self ⟨by omega, h⟩

/-! ## The backoff delay -/

/-- C1. The cap of `GetRetryDelay` compares a count of milliseconds with
`maxBackOffMillisDuration` taken in nanoseconds: with base backoff 100ms and
maximum backoff 10000ms, attempt 20 with draw 0 yields 104857600ms, which is
above the maximum backoff. -/
theorem GetRetryDelay_exceeds_maxBackOff :
    exampleHandler.GetRetryDelay 20 0 = .ok (104857600 * Millisecond) ∧
      exampleHandler.maxBackOffMillisDuration = 10000 * Millisecond ∧
      exampleHandler.maxBackOffMillisDuration < 104857600 * Millisecond :=
  ⟨rfl, rfl, by decide⟩

/-- C2. With base backoff 100ms and maximum backoff 10000ms, attempt 20 is
not capped at 10000ms: for every draw `J` in `[0, 100)` the result is
`2^20 * (100 + J)` milliseconds, and this differs from
`min (2^20 * (100 + J) ms) maxBackoff`, which is 10000ms. -/
theorem GetRetryDelay_twenty_not_capped (J : Int) (h0 : 0 ≤ J) (h1 : J < 100) :
    exampleHandler.GetRetryDelay 20 J = .ok (2 ^ 20 * (100 + J) * Millisecond) ∧
      exampleHandler.GetRetryDelay 20 J ≠
        .ok (Min.min (2 ^ 20 * (100 + J) * Millisecond)
          exampleHandler.maxBackOffMillisDuration) := by
  have hB : exampleHandler.timeInMillis = 100 := by decide
  have hS : shl1 (toUint 20) = 1048576 := by decide
  have hM : exampleHandler.maxBackOffMillisDuration = 10000000000 := by decide
  have hval : exampleHandler.GetRetryDelay 20 J = .ok (2 ^ 20 * (100 + J) * Millisecond) := by
    rw [GetRetryDelay_of_pos (by rw [hB]; norm_num), hB, hS, hM]
    have e1 : add64 J 100 = J + 100 := wrap64_eq_self ⟨by omega, by omega⟩
    have e2 : mul64 1048576 (J + 100) = 1048576 * (J + 100) :=
      wrap64_eq_self ⟨by omega, by omega⟩
    have e3 : min (1048576 * (J + 100)) 10000000000 = 1048576 * (J + 100) := by
      unfold min
      rw [if_pos (by omega)]
    have e4 : mul64 (1048576 * (J + 100)) Millisecond = 1048576 * (J + 100) * Millisecond := by
      unfold Millisecond
      exact wrap64_eq_self ⟨by omega, by omega⟩
    rw [e1, e2, e3, e4]
    unfold Millisecond
    congr 1
    ring
  refine ⟨hval, ?_⟩
  rw [hval, hM]
  intro hc
  have hc2 := Except.ok.inj hc
  unfold Millisecond at hc2
  have hp : (2 : Int) ^ 20 = 1048576 := by norm_num
  rw [hp] at hc2
  have hmin : Min.min (1048576 * (100 + J) * 1000000) (10000000000 : Int) = 10000000000 :=
    min_eq_right (by omega)
  rw [hmin] at hc2
  have hc3 : (1048576 * (100 + J) * 1000000 : Int) = 10000000000 := hc2
  omega

theorem GetRetryDelay_twenty_not_capped_witness :
    exampleHandler.GetRetryDelay 20 99 = .ok (2 ^ 20 * (100 + 99) * Millisecond) ∧
      exampleHandler.GetRetryDelay 20 99 ≠
        .ok (Min.min (2 ^ 20 * (100 + 99) * Millisecond)
          exampleHandler.maxBackOffMillisDuration) :=
  GetRetryDelay_twenty_not_capped 99 (by decide) (by decide)

/-- C3. For a handler whose base backoff is at least one millisecond, an
attempt count `n ≥ 0` and a draw `J` in `[0, B)`, where `B` is the base
backoff in whole milliseconds: if `2^n * 2B` milliseconds is below the
maximum backoff, then `GetRetryDelay n` returns a duration in the half-open
interval from `2^n * B` milliseconds to `2^n * 2B` milliseconds. -/
theorem GetRetryDelay_uncapped_interval (r : RetryHandler) (n : Nat) (J : Int)
    (hwf : r.wf) (hbase : Millisecond ≤ r.baseBackOffDuration)
    (hJ0 : 0 ≤ J) (hJ1 : J < r.timeInMillis)
    (hcap : 2 ^ n * (2 * r.timeInMillis) * Millisecond < r.maxBackOffMillisDuration) :
    ∃ d : Duration, r.GetRetryDelay (n : Int) J = .ok d ∧
      2 ^ n * r.timeInMillis * Millisecond ≤ d ∧
      d < 2 ^ n * (2 * r.timeInMillis) * Millisecond := by
  have hB := timeInMillis_pos hbase
  obtain ⟨-, -, -, hmax⟩ := hwf
  rw [GetRetryDelay_of_pos hB]
  generalize r.timeInMillis = B at hB hJ1 hcap ⊢
  generalize hM : r.maxBackOffMillisDuration = M at hmax hcap
  have hP := two_pow_pos_int n
  generalize hPdef : (2 : Int) ^ n = P at hP hcap
  have hcap2 : 2000000 * (P * B) < M := by
    have e : P * (2 * B) * Millisecond = 2000000 * (P * B) := by
      unfold Millisecond
      ring
    rw [← e]
    exact hcap
  have hPB : 1 * B ≤ P * B := mul_le_mul_of_nonneg_right hP (by omega)
  have hPJ0 : 0 ≤ P * J := mul_nonneg (by omega) hJ0
  have hPJ : P * J < P * B := mul_lt_mul_of_pos_left hJ1 (by omega)
  have hsum : P * (J + B) = P * J + P * B := by ring
  have hdelay : mul64 (shl1 (toUint (n : Int))) (add64 J B) = P * (J + B) := by
    rw [← hPdef]
    exact delay_eq_of_no_overflow hJ0 hB (by rw [hPdef]; omega)
  have hmin : min (P * (J + B)) M = P * (J + B) := by
    unfold min
    rw [if_pos (by omega)]
  have hmul : mul64 (P * (J + B)) Millisecond = 1000000 * (P * J) + 1000000 * (P * B) := by
    have e : P * (J + B) * Millisecond = 1000000 * (P * J) + 1000000 * (P * B) := by
      unfold Millisecond
      ring
    unfold mul64
    rw [e]
    exact wrap64_eq_self ⟨by omega, by omega⟩
  refine ⟨1000000 * (P * J) + 1000000 * (P * B), ?_, ?_, ?_⟩
  · rw [hdelay, hmin, hmul]
  · have e : P * B * Millisecond = 1000000 * (P * B) := by
      unfold Millisecond
      ring
    rw [e]
    show (1000000 * (P * B) : Int) ≤ 1000000 * (P * J) + 1000000 * (P * B)
    omega
  · have e : P * (2 * B) * Millisecond = 2000000 * (P * B) := by
      unfold Millisecond
      ring
    rw [e]
    show (1000000 * (P * J) + 1000000 * (P * B) : Int) < 2000000 * (P * B)
    omega

theorem GetRetryDelay_uncapped_interval_witness :
    ∃ d : Duration, exampleHandler.GetRetryDelay ((3 : Nat) : Int) 57 = .ok d ∧
      2 ^ 3 * exampleHandler.timeInMillis * Millisecond ≤ d ∧
      d < 2 ^ 3 * (2 * exampleHandler.timeInMillis) * Millisecond :=
  GetRetryDelay_uncapped_interval exampleHandler 3 57 (by decide) (by decide) (by decide)
    (by decide) (by decide)

/-- C4. The result of `GetRetryDelay` can be negative: with base backoff
100ms and maximum backoff 10000ms (both non-negative), attempt 57 with draw 1
makes `2^57 * 101` wrap to a negative `delay`, which `min` keeps, and the
conversion to a duration wraps again to the least 64-bit value. -/
theorem GetRetryDelay_negative_at_57 :
    exampleHandler.GetRetryDelay 57 1 = .ok (-9223372036854775808) ∧
      Millisecond ≤ exampleHandler.baseBackOffDuration ∧
      0 ≤ exampleHandler.maxBackOffMillisDuration ∧
      (0 : Int) ≤ 1 ∧ 1 < exampleHandler.timeInMillis :=
  ⟨rfl, by decide, by decide, by decide, by decide⟩

/-! ## Panics of the handler -/

/-- C5 (counterexample). With a base backoff of 500 microseconds the base in
whole milliseconds is 0, `rand.Intn 0` panics, and so do `GetRetryDelay` and
`IsTimeToRetry`. -/
theorem GetRetryDelay_panics_below_millisecond :
    subMillisecondHandler.timeInMillis = 0 ∧
      subMillisecondHandler.GetRetryDelay 0 0 = .error .invalidArgumentToIntn ∧
      subMillisecondHandler.IsTimeToRetry (constClock 0) 0 0 0 =
        .error .invalidArgumentToIntn :=
  ⟨rfl, rfl, rfl⟩

/-- C5 (amended). For every handler whose base backoff is at least one
millisecond, every attempt count, every draw and every clock reading,
`GetRetryDelay` and `IsTimeToRetry` return a value. -/
theorem GetRetryDelay_IsTimeToRetry_return (r : RetryHandler) (clock : Clock)
    (lastUpdatedTime : Time) (retryCount draw : Int)
    (hbase : Millisecond ≤ r.baseBackOffDuration) :
    (∃ d : Duration, r.GetRetryDelay retryCount draw = .ok d) ∧
      (∃ b : Bool, r.IsTimeToRetry clock lastUpdatedTime retryCount draw = .ok b) := by
  have hB := timeInMillis_pos hbase
  have hd := GetRetryDelay_of_pos hB retryCount draw
  refine ⟨⟨_, hd⟩, ?_⟩
  unfold RetryHandler.IsTimeToRetry
  simp only [hd]
  exact ⟨_, rfl⟩

theorem GetRetryDelay_IsTimeToRetry_return_witness :
    (∃ d : Duration, exampleHandler.GetRetryDelay 64 7 = .ok d) ∧
      (∃ b : Bool, exampleHandler.IsTimeToRetry (constClock 5) 0 64 7 = .ok b) :=
  GetRetryDelay_IsTimeToRetry_return exampleHandler (constClock 5) 0 64 7 (by decide)

/-! ## Queries on the error -/

/-- C6. For a non-nil `*FlinkApplicationError` `f` and every retry count,
`IsRetryRemaining` returns the truth value of `retryCount ≤ f.MaxRetries`;
in particular it returns true exactly when `retryCount ≤ f.MaxRetries`. -/
theorem IsRetryRemaining_iff_le (r : RetryHandler) (f : FlinkApplicationError)
    (retryCount : Int) :
    r.IsRetryRemaining (.flink (some f)) retryCount = .ok (decide (retryCount ≤ f.MaxRetries)) ∧
      (r.IsRetryRemaining (.flink (some f)) retryCount = .ok true ↔
        retryCount ≤ f.MaxRetries) := by
  have h : r.IsRetryRemaining (.flink (some f)) retryCount =
      .ok (decide (retryCount ≤ f.MaxRetries)) := rfl
  refine ⟨h, ?_⟩
  rw [h]
  constructor
  · intro hc
    exact of_decide_eq_true (Except.ok.inj hc)
  · intro hle
    rw [decide_eq_true hle]

/-- C7. For an error that is the nil interface, a nil
`*FlinkApplicationError` inside a non-nil interface, or a value of another
type, and for every retry count, `IsErrorRetryable`, `IsErrorFailFast` and
`IsRetryRemaining` all return false, without a panic. -/
theorem queries_false_of_not_flink (r : RetryHandler) (err : GoError) (retryCount : Int)
    (h : err = .nil ∨ err = .flink none ∨ ∃ t m, err = .other t m) :
    r.IsErrorRetryable err = .ok false ∧ r.IsErrorFailFast err = .ok false ∧
      r.IsRetryRemaining err retryCount = .ok false := by
  rcases h with h | h | ⟨t, m, h⟩ <;> subst h <;> exact ⟨rfl, rfl, rfl⟩

theorem queries_false_of_not_flink_witness :
    exampleHandler.IsErrorRetryable (.flink none) = .ok false ∧
      exampleHandler.IsErrorFailFast (.flink none) = .ok false ∧
      exampleHandler.IsRetryRemaining (.flink none) 3 = .ok false :=
  queries_false_of_not_flink exampleHandler (.flink none) 3 (Or.inr (Or.inl rfl))

/-- C8. For a non-nil `*FlinkApplicationError` `f` and every handler,
`IsErrorRetryable` returns `f.IsRetryable` and `IsErrorFailFast` returns
`f.IsFailFast`, whatever the other fields of `f` and the durations of the
handler are. -/
theorem IsErrorRetryable_IsErrorFailFast_flags (r : RetryHandler) (f : FlinkApplicationError) :
    r.IsErrorRetryable (.flink (some f)) = .ok f.IsRetryable ∧
      r.IsErrorFailFast (.flink (some f)) = .ok f.IsFailFast :=
  ⟨rfl, rfl⟩

/-! ## Queries on elapsed time -/

/-- C9. `WaitOnError` returns the time the clock reports since
`lastUpdatedTime` together with a flag that is true exactly when that time is
at most `maxErrWaitDuration`. -/
theorem WaitOnError_spec (r : RetryHandler) (clock : Clock) (lastUpdatedTime : Time) :
    (r.WaitOnError clock lastUpdatedTime).1 = clock.Since lastUpdatedTime ∧
      ((r.WaitOnError clock lastUpdatedTime).2 = true ↔
        clock.Since lastUpdatedTime ≤ r.maxErrWaitDuration) := by
  unfold RetryHandler.WaitOnError
  simp

/-- C10. `IsTimeToRetry` returns true exactly when `GetRetryDelay`, for the
same retry count and the same draw, yields a duration that the elapsed time
does not exceed; whenever `GetRetryDelay` yields a duration, `IsTimeToRetry`
returns the truth value of that comparison. -/
theorem IsTimeToRetry_iff (r : RetryHandler) (clock : Clock) (lastUpdatedTime : Time)
    (retryCount draw : Int) :
    (r.IsTimeToRetry clock lastUpdatedTime retryCount draw = .ok true ↔
      ∃ d : Duration, r.GetRetryDelay retryCount draw = .ok d ∧
        clock.Since lastUpdatedTime ≤ d) ∧
      r.IsTimeToRetry clock lastUpdatedTime retryCount draw =
        (r.GetRetryDelay retryCount draw).map
          (fun d => decide (clock.Since lastUpdatedTime ≤ d)) := by
  unfold RetryHandler.IsTimeToRetry
  cases hd : r.GetRetryDelay retryCount draw with
  | error e =>
    refine ⟨⟨?_, ?_⟩, rfl⟩
    · intro hc
      cases hc
    · rintro ⟨d, hc, -⟩
      cases hc
  | ok d =>
    refine ⟨⟨?_, ?_⟩, rfl⟩
    · intro hc
      exact ⟨d, rfl, of_decide_eq_true (Except.ok.inj hc)⟩
    · rintro ⟨d2, hc, hle⟩
      cases hc
      show Except.ok (decide (clock.Since lastUpdatedTime ≤ d)) = Except.ok true
      rw [decide_eq_true hle]

/-! ## Construction of the structured error: helpers -/

theorem GoError_ne_nil_of_Error {err : GoError} {msg : String} (h : err.Error = .ok msg) :
    err ≠ .nil := by
  intro hn
  subst hn
  cases h

/-- The result of `GetError` when no cause is supplied. -/
theorem GetError_nil (method errorCode : String) (isRetryable isFailFast : Bool)
    (maxRetries : Int) (message : List String) :
    GetError .nil method errorCode isRetryable isFailFast maxRetries message =
      .ok (.flink (some
        { AppError := sprintfCallFailed method errorCode message
          Method := method
          ErrorCode := errorCode
          IsRetryable := isRetryable
          IsFailFast := isFailFast
          MaxRetries := maxRetries
          LastErrorUpdateTime := none })) :=
  rfl

/-- The result of `GetError` when the cause supplied has a message. -/
theorem GetError_of_message {err : GoError} {msg : String} (h : err.Error = .ok msg)
    (method errorCode : String) (isRetryable isFailFast : Bool)
    (maxRetries : Int) (message : List String) :
    GetError err method errorCode isRetryable isFailFast maxRetries message =
      .ok (.flink (some
        { AppError := sprintfCallFailed method errorCode message ++ ": " ++ msg
          Method := method
          ErrorCode := errorCode
          IsRetryable := isRetryable
          IsFailFast := isFailFast
          MaxRetries := maxRetries
          LastErrorUpdateTime := none })) := by
  have hne := GoError_ne_nil_of_Error h
  unfold GetError
  simp only [if_neg hne, PkgError.Error, h]
  rfl

/-- The cause that is a nil `*FlinkApplicationError` inside a non-nil
interface has no message, and `GetError` panics on it. -/
theorem GetError_typed_nil_panics (method errorCode : String) (isRetryable isFailFast : Bool)
    (maxRetries : Int) (message : List String) :
    GetError (.flink none) method errorCode isRetryable isFailFast maxRetries message =
      .error .nilDereference :=
  rfl

theorem intercalate_go_append (p acc sep : String) (xs : List String) :
    String.intercalate.go (p ++ acc) sep xs = p ++ String.intercalate.go acc sep xs := by
  induction xs generalizing acc with
  | nil => rfl
  | cons x rest ih =>
    show String.intercalate.go (p ++ acc ++ sep ++ x) sep rest =
      p ++ String.intercalate.go (acc ++ sep ++ x) sep rest
    rw [← ih, String.append_assoc, String.append_assoc, String.append_assoc]

theorem fmt_fold_after_first (acc : String) (xs : List String) :
    xs.foldl (fun (acc : String × Bool) x =>
      ((if acc.2 then acc.1 else acc.1 ++ " ") ++ x, false)) (acc, false) =
      (String.intercalate.go acc " " xs, false) := by
  induction xs generalizing acc with
  | nil => rfl
  | cons x rest ih =>
    rw [List.foldl_cons]
    exact ih (acc ++ " " ++ x)

/-- The rendering of a `[]string` by `%v` is the elements joined by single
blanks, inside square brackets. -/
theorem fmtStringSlice_eq (xs : List String) :
    fmtStringSlice xs = "[" ++ " ".intercalate xs ++ "]" := by
  cases xs with
  | nil => rfl
  | cons x rest =>
    unfold fmtStringSlice
    rw [List.foldl_cons]
    have h := fmt_fold_after_first ("[" ++ x) rest
    simp only [] at h
    rw [show ((if ("[", true).2 then ("[", true).1 else ("[", true).1 ++ " ") ++ x, false) =
      (("[" ++ x, false) : String × Bool) from rfl, h, intercalate_go_append]
    rfl

theorem String_append_left_cancel {a b c : String} (h : a ++ b = a ++ c) : b = c := by
  have hd := congrArg String.data h
  rw [String.data_append, String.data_append] at hd
  exact String.ext (List.append_cancel_left hd)

/-! ## Construction of the structured error -/

/-- C11 (counterexample). When the cause is a nil `*FlinkApplicationError`
inside a non-nil interface, `GetError` wraps it, calls its `Error` method,
which dereferences nil, and panics: no `*FlinkApplicationError` is
returned. -/
theorem GetError_no_result_on_typed_nil :
    GetError (.flink none) SubmitJob GlobalFailure true false 20 [] =
      .error .nilDereference ∧
    ¬ ∃ f : FlinkApplicationError,
      GetError (.flink none) SubmitJob GlobalFailure true false 20 [] =
        .ok (.flink (some f)) := by
  refine ⟨rfl, ?_⟩
  rintro ⟨f, hf⟩
  cases hf

/-- C11 (amended). For every method, error code, flags, retry bound and
context strings, with no cause or with a cause whose `Error()` returns a
message, `GetError` returns a non-nil `*FlinkApplicationError` whose
`Method`, `ErrorCode`, `IsRetryable`, `IsFailFast` and `MaxRetries` are the
arguments, whose `LastErrorUpdateTime` is absent and whose `Error()` is its
`AppError`. -/
theorem GetError_fields (err : GoError) (method errorCode : String)
    (isRetryable isFailFast : Bool) (maxRetries : Int) (message : List String)
    (hc : err = .nil ∨ ∃ msg, err.Error = .ok msg) :
    ∃ f : FlinkApplicationError,
      GetError err method errorCode isRetryable isFailFast maxRetries message =
        .ok (.flink (some f)) ∧
      f.Method = method ∧ f.ErrorCode = errorCode ∧ f.IsRetryable = isRetryable ∧
      f.IsFailFast = isFailFast ∧ f.MaxRetries = maxRetries ∧
      f.LastErrorUpdateTime = none ∧
      (GoError.flink (some f)).Error = .ok f.AppError := by
  rcases hc with hc | ⟨msg, hc⟩
  · subst hc
    exact ⟨_, GetError_nil _ _ _ _ _ _, rfl, rfl, rfl, rfl, rfl, rfl, rfl⟩
  · exact ⟨_, GetError_of_message hc _ _ _ _ _ _, rfl, rfl, rfl, rfl, rfl, rfl, rfl⟩

theorem GetError_fields_witness :
    ∃ f : FlinkApplicationError,
      GetError (.other "*errors.errorString" "connection refused") SubmitJob GlobalFailure
        true false defaultRetries ["job", "submission"] = .ok (.flink (some f)) ∧
      f.Method = SubmitJob ∧ f.ErrorCode = GlobalFailure ∧ f.IsRetryable = true ∧
      f.IsFailFast = false ∧ f.MaxRetries = defaultRetries ∧
      f.LastErrorUpdateTime = none ∧
      (GoError.flink (some f)).Error = .ok f.AppError :=
  GetError_fields (.other "*errors.errorString" "connection refused") SubmitJob GlobalFailure
    true false defaultRetries ["job", "submission"] (Or.inr ⟨"connection refused", rfl⟩)

/-- C12 (counterexample). With a nil `*FlinkApplicationError` inside a
non-nil interface as the cause, retry bound 20 and retry count 5, the
composition of `GetError` and `IsRetryRemaining` panics inside `GetError`,
so it is not true although `5 ≤ 20`. -/
theorem IsRetryRemaining_GetError_fails_on_typed_nil :
    (GetError (.flink none) SubmitJob GlobalFailure true false 20 [] >>=
      fun e => exampleHandler.IsRetryRemaining e 5) = .error .nilDereference ∧
    ¬ ((GetError (.flink none) SubmitJob GlobalFailure true false 20 [] >>=
        fun e => exampleHandler.IsRetryRemaining e 5) = .ok true ↔ (5 : Int) ≤ 20) := by
  refine ⟨rfl, ?_⟩
  intro h
  have hc := h.mpr (by decide)
  cases hc

/-- C12 (amended). For every retry bound `m` and retry count `n`, and any
other arguments with no cause or with a cause whose `Error()` returns a
message, `IsRetryRemaining` on the error built by `GetError` with bound `m`
is true exactly when `n ≤ m`. -/
theorem IsRetryRemaining_GetError (r : RetryHandler) (err : GoError) (method errorCode : String)
    (isRetryable isFailFast : Bool) (m n : Int) (message : List String)
    (hc : err = .nil ∨ ∃ msg, err.Error = .ok msg) :
    ∃ e : GoError,
      GetError err method errorCode isRetryable isFailFast m message = .ok e ∧
      r.IsRetryRemaining e n = .ok (decide (n ≤ m)) ∧
      (r.IsRetryRemaining e n = .ok true ↔ n ≤ m) := by
  have key : ∀ f : FlinkApplicationError, f.MaxRetries = m →
      r.IsRetryRemaining (.flink (some f)) n = .ok (decide (n ≤ m)) ∧
      (r.IsRetryRemaining (.flink (some f)) n = .ok true ↔ n ≤ m) := by
    intro f hf
    have h : r.IsRetryRemaining (.flink (some f)) n = .ok (decide (n ≤ m)) := by
      rw [← hf]
      rfl
    refine ⟨h, ?_⟩
    rw [h]
    constructor
    · intro hc
      exact of_decide_eq_true (Except.ok.inj hc)
    · intro hle
      rw [decide_eq_true hle]
  rcases hc with hc | ⟨msg, hc⟩
  · subst hc
    exact ⟨_, GetError_nil _ _ _ _ _ _, key _ rfl⟩
  · exact ⟨_, GetError_of_message hc _ _ _ _ _ _, key _ rfl⟩

theorem IsRetryRemaining_GetError_witness :
    (∃ e : GoError,
      GetError .nil SubmitJob GlobalFailure true false 20 [] = .ok e ∧
      exampleHandler.IsRetryRemaining e 20 = .ok (decide ((20 : Int) ≤ 20)) ∧
      (exampleHandler.IsRetryRemaining e 20 = .ok true ↔ (20 : Int) ≤ 20)) ∧
    (∃ e : GoError,
      GetError .nil SubmitJob GlobalFailure true false 20 [] = .ok e ∧
      exampleHandler.IsRetryRemaining e 21 = .ok (decide ((21 : Int) ≤ 20)) ∧
      (exampleHandler.IsRetryRemaining e 21 = .ok true ↔ (21 : Int) ≤ 20)) :=
  ⟨IsRetryRemaining_GetError exampleHandler .nil SubmitJob GlobalFailure true false 20 20 []
      (Or.inl rfl),
    IsRetryRemaining_GetError exampleHandler .nil SubmitJob GlobalFailure true false 20 21 []
      (Or.inl rfl)⟩

/-- C13. When no cause is supplied, the message of the failure `GetError`
returns is the method, " call failed with status ", the error code,
" and message " and the context strings joined by single blanks inside square
brackets; with no context strings the rendering is "[]". -/
theorem GetError_message_without_cause (method errorCode : String)
    (isRetryable isFailFast : Bool) (maxRetries : Int) (message : List String) :
    (∃ f : FlinkApplicationError,
      GetError .nil method errorCode isRetryable isFailFast maxRetries message =
        .ok (.flink (some f)) ∧
      (GoError.flink (some f)).Error =
        .ok (method ++ " call failed with status " ++ errorCode ++ " and message " ++
          ("[" ++ " ".intercalate message ++ "]"))) ∧
    fmtStringSlice [] = "[]" := by
  refine ⟨⟨_, GetError_nil _ _ _ _ _ _, ?_⟩, rfl⟩
  show Except.ok (sprintfCallFailed method errorCode message) = _
  unfold sprintfCallFailed
  rw [fmtStringSlice_eq]

/-- C14. When a cause with message `msg` is supplied, the message of the
failure `GetError` returns is the message of the failure built from the same
arguments without a cause, followed by ": " and by `msg`; the summary is a
prefix of it and `msg` a suffix. -/
theorem GetError_message_with_cause (c : GoError) (msg : String) (method errorCode : String)
    (isRetryable isFailFast : Bool) (maxRetries : Int) (message : List String)
    (hc : c.Error = .ok msg) :
    ∃ f f0 : FlinkApplicationError,
      GetError c method errorCode isRetryable isFailFast maxRetries message =
        .ok (.flink (some f)) ∧
      GetError .nil method errorCode isRetryable isFailFast maxRetries message =
        .ok (.flink (some f0)) ∧
      f.AppError = f0.AppError ++ ": " ++ msg ∧
      f0.AppError.data <+: f.AppError.data ∧
      msg.data <:+ f.AppError.data := by
  refine ⟨_, _, GetError_of_message hc _ _ _ _ _ _, GetError_nil _ _ _ _ _ _, rfl, ?_, ?_⟩
  · show (sprintfCallFailed method errorCode message).data <+:
      (sprintfCallFailed method errorCode message ++ ": " ++ msg).data
    rw [String.append_assoc, String.data_append]
    exact List.prefix_append _ _
  · show msg.data <:+ (sprintfCallFailed method errorCode message ++ ": " ++ msg).data
    rw [String.data_append]
    exact List.suffix_append _ _

theorem GetError_message_with_cause_witness :
    ∃ f f0 : FlinkApplicationError,
      GetError (.other "*errors.errorString" "boom") GetJobs GlobalFailure false true 0
        ["a", "b"] = .ok (.flink (some f)) ∧
      GetError .nil GetJobs GlobalFailure false true 0 ["a", "b"] = .ok (.flink (some f0)) ∧
      f.AppError = f0.AppError ++ ": " ++ "boom" ∧
      f0.AppError.data <+: f.AppError.data ∧
      "boom".data <:+ f.AppError.data :=
  GetError_message_with_cause (.other "*errors.errorString" "boom") "boom" GetJobs GlobalFailure
    false true 0 ["a", "b"] rfl

/-- C15 (counterexample). Two different causes with the same message, an
`*errors.errorString` and a `*net.OpError` both saying "boom", give equal
failures for identical other arguments. -/
theorem GetError_forgets_cause :
    GetError (.other "*errors.errorString" "boom") SubmitJob GlobalFailure true false 20 [] =
      GetError (.other "*net.OpError" "boom") SubmitJob GlobalFailure true false 20 [] ∧
    GoError.other "*errors.errorString" "boom" ≠ GoError.other "*net.OpError" "boom" ∧
    ∃ e : GoError,
      GetError (.other "*errors.errorString" "boom") SubmitJob GlobalFailure true false 20 [] =
        .ok e :=
  ⟨rfl, by decide, _, rfl⟩

/-- C15 (amended). The failure `GetError` returns keeps the message of the
cause and nothing else of it: for two causes with messages and identical
other arguments, `GetError` yields equal failures exactly when the two
messages are equal. -/
theorem GetError_determines_message (c1 c2 : GoError) (m1 m2 : String)
    (method errorCode : String) (isRetryable isFailFast : Bool) (maxRetries : Int)
    (message : List String) (h1 : c1.Error = .ok m1) (h2 : c2.Error = .ok m2) :
    GetError c1 method errorCode isRetryable isFailFast maxRetries message =
      GetError c2 method errorCode isRetryable isFailFast maxRetries message ↔
    m1 = m2 := by
  rw [GetError_of_message h1, GetError_of_message h2]
  constructor
  · intro heq
    have hf := Option.some.inj (GoError.flink.inj (Except.ok.inj heq))
    have ha := congrArg FlinkApplicationError.AppError hf
    exact String_append_left_cancel ha
  · intro hm
    rw [hm]

theorem GetError_determines_message_witness :
    GetError (.other "*errors.errorString" "boom") SubmitJob GlobalFailure true false 20
        ["a"] =
      GetError (.flink (some (sampleError true false 3))) SubmitJob GlobalFailure true false 20
        ["a"] ↔
    "boom" = "SubmitJob call failed with status FAILED and message []" :=
  GetError_determines_message (.other "*errors.errorString" "boom")
    (.flink (some (sampleError true false 3))) "boom"
    "SubmitJob call failed with status FAILED and message []" SubmitJob GlobalFailure
    true false 20 ["a"] rfl rfl

/-- C16 (counterexample). `GetError` accepts a negative retry bound and
returns a failure whose `MaxRetries` is that negative number. -/
theorem GetError_negative_MaxRetries :
    GetError .nil SubmitJob GlobalFailure true false (-1) [] =
      .ok (.flink (some
        { AppError := "SubmitJob call failed with status FAILED and message []"
          Method := "SubmitJob"
          ErrorCode := "FAILED"
          IsRetryable := true
          IsFailFast := false
          MaxRetries := -1
          LastErrorUpdateTime := none })) ∧
    isInt32 (-1) ∧ ¬ (0 : Int) ≤ -1 :=
  ⟨rfl, by decide, by decide⟩

/-- C16 (amended). For every argument list with no cause or a cause that has
a message, the failure `GetError` returns has `MaxRetries` equal to the
`maxRetries` argument; so `MaxRetries ≥ 0` holds exactly when the argument is
non-negative. -/
theorem GetError_MaxRetries (err : GoError) (method errorCode : String)
    (isRetryable isFailFast : Bool) (maxRetries : Int) (message : List String)
    (hc : err = .nil ∨ ∃ msg, err.Error = .ok msg) :
    ∃ f : FlinkApplicationError,
      GetError err method errorCode isRetryable isFailFast maxRetries message =
        .ok (.flink (some f)) ∧
      f.MaxRetries = maxRetries ∧ (0 ≤ f.MaxRetries ↔ 0 ≤ maxRetries) := by
  rcases hc with hc | ⟨msg, hc⟩
  · subst hc
    exact ⟨_, GetError_nil _ _ _ _ _ _, rfl, Iff.rfl⟩
  · exact ⟨_, GetError_of_message hc _ _ _ _ _ _, rfl, Iff.rfl⟩

theorem GetError_MaxRetries_witness :
    ∃ f : FlinkApplicationError,
      GetError .nil GetJobs JSONUnmarshalError false false noRetries ["x"] =
        .ok (.flink (some f)) ∧
      f.MaxRetries = noRetries ∧ (0 ≤ f.MaxRetries ↔ 0 ≤ noRetries) :=
  GetError_MaxRetries .nil GetJobs JSONUnmarshalError false false noRetries ["x"] (Or.inl rfl)

/-! ## Deep copy -/

theorem DeepCopy_of_no_time (h : Heap) (a : Nat) (ha : a ≠ h.nextError)
    (hn : (h.errors a).LastErrorUpdateTime = none) :
    FlinkApplicationError.DeepCopy h (some a) =
      .ok ({ h with
              errors := Function.update (Function.update h.errors h.nextError zeroCell)
                h.nextError (h.errors a)
              nextError := h.nextError + 1 }, some h.nextError) := by
  simp [FlinkApplicationError.DeepCopy, FlinkApplicationError.DeepCopyInto, Heap.newError,
    Heap.readError, Heap.writeError, Function.update_noteq ha, hn, bind, Except.bind, pure,
    Except.pure]

theorem DeepCopy_of_time (h : Heap) (a t : Nat) (ha : a ≠ h.nextError)
    (hn : (h.errors a).LastErrorUpdateTime = some t) :
    FlinkApplicationError.DeepCopy h (some a) =
      .ok ({ times := Function.update h.times h.nextTime (h.times t)
             nextTime := h.nextTime + 1
             errors := Function.update (Function.update
                (Function.update h.errors h.nextError zeroCell)
                h.nextError (h.errors a)) h.nextError
                { h.errors a with LastErrorUpdateTime := some h.nextTime }
             nextError := h.nextError + 1 }, some h.nextError) := by
  simp [FlinkApplicationError.DeepCopy, FlinkApplicationError.DeepCopyInto, Heap.newError,
    Heap.readError, Heap.writeError, Function.update_noteq ha, hn, bind, Except.bind, pure,
    Except.pure, TimeDeepCopy, Heap.newTime]

/-- C17. For a non-nil failure `f` in memory, `DeepCopy` returns a pointer
to another cell whose seven fields equal those of `f` in value, the timestamp
being present in the copy exactly when it is present in `f`; `f` itself is
left as it was; writing a new instant through the timestamp pointer of the
copy changes the timestamp of the copy and leaves that of `f` unchanged; and
`DeepCopy` of the nil pointer is nil. -/
theorem DeepCopy_spec (h : Heap) (a : Nat) (ha : a < h.nextError)
    (ht : ∀ t, (h.errors a).LastErrorUpdateTime = some t → t < h.nextTime) :
    (∃ (h' : Heap) (b : Nat),
      FlinkApplicationError.DeepCopy h (some a) = .ok (h', some b) ∧ b ≠ a ∧
      h'.load (some b) = h.load (some a) ∧
      h'.load (some a) = h.load (some a) ∧
      (h'.errors b).LastErrorUpdateTime.isSome = (h.errors a).LastErrorUpdateTime.isSome ∧
      ∀ (tb : Nat) (v : Time), (h'.errors b).LastErrorUpdateTime = some tb →
        ∃ h'' : Heap, h'.writeTime (some tb) v = .ok h'' ∧
          h''.load (some a) = h.load (some a) ∧
          (h''.load (some b)).map FlinkApplicationError.LastErrorUpdateTime =
            some (some v)) ∧
    FlinkApplicationError.DeepCopy h none = .ok (h, none) := by
  have hne : a ≠ h.nextError := by omega
  refine ⟨?_, rfl⟩
  cases hn : (h.errors a).LastErrorUpdateTime with
  | none =>
    refine ⟨_, _, DeepCopy_of_no_time h a hne hn, fun hc => hne hc.symm, ?_, ?_, ?_, ?_⟩
    · simp [Heap.load, hn]
    · simp [Heap.load, Function.update_noteq hne, hn]
    · simp [hn]
    · intro tb v hc
      simp [hn] at hc
  | some t =>
    have htn : t ≠ h.nextTime := by
      have := ht t hn
      omega
    refine ⟨_, _, DeepCopy_of_time h a t hne hn, fun hc => hne hc.symm, ?_, ?_, ?_, ?_⟩
    · simp [Heap.load, hn]
    · simp [Heap.load, Function.update_noteq hne, Function.update_noteq htn, hn]
    · simp [hn]
    · intro tb v hc
      simp at hc
      subst hc
      refine ⟨_, rfl, ?_, ?_⟩
      · simp [Heap.load, Function.update_noteq hne, Function.update_noteq htn, hn]
      · simp [Heap.load]

theorem DeepCopy_spec_witness :
    (∃ (h' : Heap) (b : Nat),
      FlinkApplicationError.DeepCopy sampleHeap (some 0) = .ok (h', some b) ∧ b ≠ 0 ∧
      h'.load (some b) = sampleHeap.load (some 0) ∧
      h'.load (some 0) = sampleHeap.load (some 0) ∧
      (h'.errors b).LastErrorUpdateTime.isSome =
        (sampleHeap.errors 0).LastErrorUpdateTime.isSome ∧
      ∀ (tb : Nat) (v : Time), (h'.errors b).LastErrorUpdateTime = some tb →
        ∃ h'' : Heap, h'.writeTime (some tb) v = .ok h'' ∧
          h''.load (some 0) = sampleHeap.load (some 0) ∧
          (h''.load (some b)).map FlinkApplicationError.LastErrorUpdateTime =
            some (some v)) ∧
    FlinkApplicationError.DeepCopy sampleHeap none = .ok (sampleHeap, none) :=
  DeepCopy_spec sampleHeap 0 (by decide) (fun t ht => by
    have h0 : 0 = t := Option.some.inj ht
    have h1 : sampleHeap.nextTime = 1 := rfl
    omega)

/-! ## Classification and retry verdicts -/

/-- C18 (counterexample). A failure built by `GetError` with the error code
`JSONUnmarshalError` and `isRetryable = true` is reported retryable. -/
theorem JSONUnmarshalError_retryable :
    (GetError .nil GetJobs JSONUnmarshalError true false noRetries [] >>=
      exampleHandler.IsErrorRetryable) = .ok true ∧
    JSONUnmarshalError = "JSONUNMARSHALERROR" :=
  ⟨rfl, rfl⟩

/-- C18 (amended). For every failure built by `GetError` with the error code
`JSONUnmarshalError`, with no cause or a cause that has a message,
`IsErrorRetryable` returns the `isRetryable` argument `GetError` was given:
false when the failure was classified with `isRetryable = false`. -/
theorem IsErrorRetryable_GetError_JSONUnmarshalError (r : RetryHandler) (err : GoError)
    (method : String) (isRetryable isFailFast : Bool) (maxRetries : Int)
    (message : List String) (hc : err = .nil ∨ ∃ msg, err.Error = .ok msg) :
    ∃ e : GoError,
      GetError err method JSONUnmarshalError isRetryable isFailFast maxRetries message =
        .ok e ∧
      r.IsErrorRetryable e = .ok isRetryable ∧
      (isRetryable = false → r.IsErrorRetryable e = .ok false) := by
  have key : ∀ f : FlinkApplicationError, f.IsRetryable = isRetryable →
      r.IsErrorRetryable (.flink (some f)) = .ok isRetryable ∧
      (isRetryable = false → r.IsErrorRetryable (.flink (some f)) = .ok false) := by
    intro f hf
    have h : r.IsErrorRetryable (.flink (some f)) = .ok isRetryable := by
      rw [← hf]
      rfl
    refine ⟨h, fun hfalse => ?_⟩
    rw [h, hfalse]
  rcases hc with hc | ⟨msg, hc⟩
  · subst hc
    exact ⟨_, GetError_nil _ _ _ _ _ _, key _ rfl⟩
  · exact ⟨_, GetError_of_message hc _ _ _ _ _ _, key _ rfl⟩

theorem IsErrorRetryable_GetError_JSONUnmarshalError_witness :
    ∃ e : GoError,
      GetError (.other "*json.SyntaxError" "unexpected end of JSON input") GetJobs
        JSONUnmarshalError false false noRetries [] = .ok e ∧
      exampleHandler.IsErrorRetryable e = .ok false ∧
      (false = false → exampleHandler.IsErrorRetryable e = .ok false) :=
  IsErrorRetryable_GetError_JSONUnmarshalError exampleHandler
    (.other "*json.SyntaxError" "unexpected end of JSON input") GetJobs false false noRetries []
    (Or.inr ⟨"unexpected end of JSON input", rfl⟩)

/-- C19. `GetRetryDelay` is not monotone in the attempt count: with base
backoff 100ms and maximum backoff 10000ms, attempt 3 with draw 0 yields 800ms
while attempt 64 with the same draw yields 0, because `1 << 64` is 0; and
attempt 56 with draw 1 yields 10000000s while attempt 57 with the same draw
yields the least 64-bit value, because `2^57 * 101` wraps. -/
theorem GetRetryDelay_not_monotone :
    exampleHandler.GetRetryDelay 3 0 = .ok (800 * Millisecond) ∧
      exampleHandler.GetRetryDelay 64 0 = .ok 0 ∧
      ¬ (800 * Millisecond ≤ (0 : Int)) ∧
      exampleHandler.GetRetryDelay 56 1 = .ok 10000000000000000 ∧
      exampleHandler.GetRetryDelay 57 1 = .ok (-9223372036854775808) ∧
      ¬ ((10000000000000000 : Int) ≤ -9223372036854775808) ∧
      Millisecond ≤ exampleHandler.baseBackOffDuration ∧
      (1 : Int) < exampleHandler.timeInMillis :=
  ⟨rfl, rfl, by decide, rfl, rfl, by decide, by decide, by decide⟩

/-- C20. Inside the minimum window the verdict can be false: with base
backoff 100ms and maximum backoff 3 hours, at attempt 37 the product
`2^37 * 200` does not overflow and the elapsed time 0 is at most
`min (2^37 * 100 ms) maxBackoff`, yet `IsTimeToRetry` returns false for the
draw 0, because `min delay (int maxBackoff)` is the maximum backoff in
nanoseconds and its product with `time.Millisecond` wraps to a negative
duration. -/
theorem IsTimeToRetry_false_inside_window :
    threeHourHandler.IsTimeToRetry (constClock 0) 0 37 0 = .ok false ∧
      threeHourHandler.GetRetryDelay 37 0 = .ok (-7646744073709551616) ∧
      Millisecond ≤ threeHourHandler.baseBackOffDuration ∧
      (0 : Int) < threeHourHandler.timeInMillis ∧
      isInt64 (2 ^ 37 * (2 * threeHourHandler.timeInMillis)) ∧
      (constClock 0).Since 0 ≤
        Min.min (2 ^ 37 * threeHourHandler.timeInMillis * Millisecond)
          threeHourHandler.maxBackOffMillisDuration :=
  ⟨rfl, rfl, by decide, by decide, by decide, by decide⟩

end FlinkClient
